import Mathlib

/-!
# Verification of the simple-redis RESP codec and command layer

Shallow embedding of the repository's RESP frame codec (`src/resp/*.rs`) and
command layer (`src/cmd/*.rs`).  Byte buffers are `List Nat` (each element a
byte value < 256, front of the list = front of the buffer).  Rust `String`
values are modelled by their UTF-8 byte lists.  `f64` payloads are modelled by
rationals (exact for every finite double); the special values NaN/±inf are
outside the model.  Error variants mirror `RespError` in `src/resp/mod.rs`,
with the diagnostic message payloads omitted.

Mutably-borrowed buffers become explicit state passing: a decoder takes the
buffer and returns the result together with the buffer left behind, so that
consumption behaviour (including consumption on error paths) is visible.
The mutually recursive decoders are defined with a fuel parameter; the
top-level entry points supply `buf.length + 1` fuel, which is ample because
every recursive step consumes at least one byte of header.
-/

namespace SimpleRedis

/-- ASCII CRLF, `b"\r\n"` in the source. -/
def crlf : List Nat := [13, 10]

/-- Errors of `RespError` (src/resp/mod.rs).  Message payloads are dropped;
`invalidFrameLength` keeps its `isize` payload. -/
inductive RespError where
  | invalidFrame
  | invalidFrameType
  | invalidFrameLength (n : Int)
  | notComplete
  | parseIntError
  | parseFloatError
  | parseBulkStringError
  deriving DecidableEq, Repr

/-- The RESP frame sum type (`RespFrame`, src/resp/frame.rs).  String-carrying
variants store the UTF-8 bytes of the Rust `String`; `BulkString` stores raw
bytes; `Double` stores the exact rational value of the finite `f64`; `Map`
stores its entries as an association list (`HashMap` iteration order is not
modelled — insertion keeps first-key position, as produced by `decode`). -/
inductive RespFrame where
  | simpleString (s : List Nat)
  | simpleError (s : List Nat)
  | integer (n : Int)
  | bulkString (b : List Nat)
  | nullBulkString
  | array (xs : List RespFrame)
  | nullArray
  | null
  | boolean (b : Bool)
  | double (q : ℚ)
  | map (entries : List (List Nat × RespFrame))
  | set (xs : List RespFrame)

/-! ## Decimal rendering helpers (model of Rust `format!` display of integers) -/

/-- Most-significant-first decimal digit bytes of `m / 1`, recursion on fuel. -/
def natDigitsAux : Nat → Nat → List Nat
  | 0, _ => []
  | _ + 1, 0 => []
  | f + 1, m => natDigitsAux f (m / 10) ++ [48 + m % 10]

/-- ASCII decimal rendering of a natural number (`format!("{}", n)`). -/
def natDigitBytes (m : Nat) : List Nat :=
  if m = 0 then [48] else natDigitsAux (m + 1) m

/-- ASCII decimal rendering of an integer (`format!("{}", n)` on `i64`):
a leading `-` for negatives, no sign otherwise. -/
def intDisplayBytes (n : Int) : List Nat :=
  if n < 0 then 45 :: natDigitBytes (-n).toNat else natDigitBytes n.toNat

/-! ## Rational rendering (model of `f64` Display / `{:+e}` formatting)

The repository's double encoder (src/resp/encode.rs, mirrored by the missing
`src/resp/double.rs` module) chooses between plain-decimal display and
scientific `{:+e}` display.  The digit sequences themselves are modelled by an
exact decimal expansion of the rational (fuel-bounded; every finite double has
a finite expansion well inside the fuel). -/

/-- Fractional decimal digits of `q` (intended `0 ≤ q < 1`), fuel-bounded.
Digits are clamped into `0..9` so that range facts hold unconditionally. -/
def fracDigits : Nat → ℚ → List Nat
  | 0, _ => []
  | f + 1, q =>
    if q = 0 then []
    else
      let q10 := q * 10
      let d := min (⌊q10⌋.toNat) 9
      (48 + d) :: fracDigits f (q10 - d)

/-- Plain decimal rendering of `|q|`: integer part, then `.` and the
fractional digits when the fractional part is nonzero. -/
def decAbsBytes (q : ℚ) : List Nat :=
  let a := |q|
  let ip := (⌊a⌋).toNat
  let fr := a - ip
  if fr = 0 then natDigitBytes ip else natDigitBytes ip ++ 46 :: fracDigits 1200 fr

/-- `format!("{}", x)` on a finite double: `-` sign for negatives,
then the decimal digits. -/
def ratDisplayBytes (q : ℚ) : List Nat :=
  if q < 0 then 45 :: decAbsBytes q else decAbsBytes q

/-- Normalize a positive rational into `[1, 10)` times a power of ten,
fuel-bounded. -/
def sciNormalize : Nat → ℚ → ℚ × Int
  | 0, q => (q, 0)
  | f + 1, q =>
    if q < 1 then
      let p := sciNormalize f (q * 10)
      (p.1, p.2 - 1)
    else if 10 ≤ q then
      let p := sciNormalize f (q / 10)
      (p.1, p.2 + 1)
    else (q, 0)

/-- `format!("{:+e}", x)` on a finite double: an explicit sign (`+` for
non-negative), the mantissa digits, the byte `e` (101), and the exponent. -/
def sciBytes (q : ℚ) : List Nat :=
  (if q < 0 then [45] else [43]) ++
    (if q = 0 then [48] ++ 101 :: intDisplayBytes 0
     else
       let p := sciNormalize 5000 |q|
       decAbsBytes p.1 ++ 101 :: intDisplayBytes p.2)

/-! ## Encoders (`RespEncode`, one `impl` per variant) -/

/-- `impl RespEncode for i64` (src/resp/integer.rs): `:` then an explicit `+`
for non-negative values, then the decimal display, then CRLF. -/
def i64Encode (n : Int) : List Nat :=
  58 :: (if n < 0 then [] else [43]) ++ intDisplayBytes n ++ crlf

/-- Condition of the double encoder's scientific branch:
`self.abs() > 1e+8 || self.abs() < 1e-8`. -/
def f64SciCond (q : ℚ) : Bool :=
  decide (|q| > (100000000 : ℚ)) || decide (|q| < (1 / 100000000 : ℚ))

/-- Payload of the double encoding between the `,` prefix and the CRLF. -/
def f64Body (q : ℚ) : List Nat :=
  if f64SciCond q then sciBytes q
  else (if q < 0 then [] else [43]) ++ ratDisplayBytes q

/-- `impl RespEncode for f64` (src/resp/encode.rs): scientific `{:+e}` form
when `|x| > 1e8 || |x| < 1e-8`, otherwise plain display with an explicit `+`
prepended for non-negative values. -/
def f64Encode (q : ℚ) : List Nat := 44 :: f64Body q ++ crlf

mutual

/-- `RespEncode::encode` over the whole frame sum (dispatch of the per-variant
`impl`s in src/resp/*.rs). -/
def frameEncode : RespFrame → List Nat
  | .simpleString s => 43 :: s ++ crlf
  | .simpleError s => 45 :: s ++ crlf
  | .integer n => i64Encode n
  | .bulkString b => 36 :: natDigitBytes b.length ++ crlf ++ b ++ crlf
  | .nullBulkString => [36, 45, 49, 13, 10]
  | .array xs => 42 :: natDigitBytes xs.length ++ crlf ++ framesEncode xs
  | .nullArray => [42, 45, 49, 13, 10]
  | .null => [95, 13, 10]
  | .boolean b => if b then [35, 116, 13, 10] else [35, 102, 13, 10]
  | .double q => f64Encode q
  | .map entries => 37 :: natDigitBytes entries.length ++ crlf ++ pairsEncode entries
  | .set xs => 126 :: natDigitBytes xs.length ++ crlf ++ framesEncode xs

/-- Concatenated encodings of a frame sequence (the element loop of
`RespArray::encode` / `RespSet::encode`). -/
def framesEncode : List RespFrame → List Nat
  | [] => []
  | x :: xs => frameEncode x ++ framesEncode xs

/-- Concatenated encodings of map entries: each key is emitted as a
SimpleString, then the value frame (`RespMap::encode`). -/
def pairsEncode : List (List Nat × RespFrame) → List Nat
  | [] => []
  | (k, v) :: rest => (43 :: k ++ crlf) ++ frameEncode v ++ pairsEncode rest

end

/-! ## UTF-8 machinery (models of `String::from_utf8_lossy` / `String::from_utf8`) -/

/-- Is `b` a UTF-8 continuation byte (`0x80..=0xBF`)? -/
def isCont (b : Nat) : Bool := 128 ≤ b && b ≤ 191

/-- The UTF-8 encoding of U+FFFD, the replacement character. -/
def fffd : List Nat := [239, 191, 189]

/-- Valid second byte of a three-byte sequence with lead `b`
(E0 requires A0..BF, ED requires 80..9F, otherwise 80..BF). -/
def cont2ok3 (b c : Nat) : Bool :=
  if b = 224 then 160 ≤ c && c ≤ 191
  else if b = 237 then 128 ≤ c && c ≤ 159
  else isCont c

/-- Valid second byte of a four-byte sequence with lead `b`
(F0 requires 90..BF, F4 requires 80..8F, otherwise 80..BF). -/
def cont2ok4 (b c : Nat) : Bool :=
  if b = 240 then 144 ≤ c && c ≤ 191
  else if b = 244 then 128 ≤ c && c ≤ 143
  else isCont c

/-- `String::from_utf8_lossy` at the byte level: well-formed sequences are
copied, each maximal invalid subpart is replaced by one U+FFFD.
Fuel-structured so that it computes by reduction; every step consumes at
least one byte, so fuel `length + 1` is ample. -/
def utf8LossyF : Nat → List Nat → List Nat
  | 0, _ => []
  | f + 1, l =>
    match l with
    | [] => []
    | b :: rest =>
      if b < 128 then b :: utf8LossyF f rest
      else if 194 ≤ b && b ≤ 223 then
        match rest with
        | c :: rest2 =>
          if isCont c then b :: c :: utf8LossyF f rest2
          else fffd ++ utf8LossyF f rest
        | [] => fffd
      else if 224 ≤ b && b ≤ 239 then
        match rest with
        | c :: rest2 =>
          if cont2ok3 b c then
            match rest2 with
            | d :: rest3 =>
              if isCont d then b :: c :: d :: utf8LossyF f rest3
              else fffd ++ utf8LossyF f rest2
            | [] => fffd
          else fffd ++ utf8LossyF f rest
        | [] => fffd
      else if 240 ≤ b && b ≤ 244 then
        match rest with
        | c :: rest2 =>
          if cont2ok4 b c then
            match rest2 with
            | d :: rest3 =>
              if isCont d then
                match rest3 with
                | e :: rest4 =>
                  if isCont e then b :: c :: d :: e :: utf8LossyF f rest4
                  else fffd ++ utf8LossyF f rest3
                | [] => fffd
              else fffd ++ utf8LossyF f rest2
            | [] => fffd
          else fffd ++ utf8LossyF f rest
        | [] => fffd
      else fffd ++ utf8LossyF f rest

/-- `String::from_utf8_lossy` at its natural fuel. -/
def utf8Lossy (l : List Nat) : List Nat := utf8LossyF (l.length + 1) l

/-- `String::from_utf8` validity at the byte level. -/
def utf8Valid : List Nat → Bool
  | [] => true
  | b :: rest =>
    if b < 128 then utf8Valid rest
    else if 194 ≤ b && b ≤ 223 then
      match rest with
      | c :: rest2 => isCont c && utf8Valid rest2
      | [] => false
    else if 224 ≤ b && b ≤ 239 then
      match rest with
      | c :: d :: rest3 => cont2ok3 b c && isCont d && utf8Valid rest3
      | _ => false
    else if 240 ≤ b && b ≤ 244 then
      match rest with
      | c :: d :: e :: rest4 =>
        cont2ok4 b c && isCont d && isCont e && utf8Valid rest4
      | _ => false
    else false

/-! ## Read-only parsing helpers (src/resp/mod.rs) -/

/-- `buf.starts_with(pat)` on byte slices. -/
def startsWithB : List Nat → List Nat → Bool
  | _, [] => true
  | [], _ :: _ => false
  | a :: as', b :: bs => a = b && startsWithB as' bs

/-- Index of the first CRLF pair, scanning every position (the `for i in
0..buf.len() - 1` loop of `extract_simple_frame_data`). -/
def findCRLF : List Nat → Option Nat
  | [] => none
  | [_] => none
  | a :: b :: rest =>
    if a = 13 ∧ b = 10 then some 0 else (findCRLF (b :: rest)).map (· + 1)

/-- `extract_simple_frame_data`: requires at least 3 bytes, the prefix, and a
CRLF at a nonzero index; returns that index. -/
def extractSimpleFrameData (buf : List Nat) (pfx : List Nat) :
    Except RespError Nat :=
  if buf.length < 3 then .error .notComplete
  else if ¬ startsWithB buf pfx then .error .invalidFrameType
  else
    match (findCRLF buf).getD 0 with
    | 0 => .error .notComplete
    | e + 1 => .ok (e + 1)

/-- Accumulate the value of a digit run; `none` on the first non-digit. -/
def digitsValAux : List Nat → Nat → Option Nat
  | [], acc => some acc
  | d :: rest, acc =>
    if 48 ≤ d && d ≤ 57 then digitsValAux rest (acc * 10 + (d - 48)) else none

/-- Value of a non-empty all-digit run, else `none`. -/
def digitsVal : List Nat → Option Nat
  | [] => none
  | l => digitsValAux l 0

/-- `str::parse::<usize>()`: optional `+`, then a non-empty digit run.
`-` (and every other non-digit, including the U+FFFD bytes that
`from_utf8_lossy` substitutes) is an `InvalidDigit` parse error.
Overflow of the 64-bit range is not modelled. -/
def parseUsize (s : List Nat) : Except RespError Nat :=
  match s with
  | 43 :: rest =>
    match digitsVal rest with
    | some v => .ok v
    | none => .error .parseIntError
  | _ =>
    match digitsVal s with
    | some v => .ok v
    | none => .error .parseIntError

/-- `str::parse::<i64>()`: optional sign, then a non-empty digit run.
Overflow of the 64-bit range is not modelled. -/
def parseI64 (s : List Nat) : Except RespError Int :=
  match s with
  | 43 :: rest =>
    match digitsVal rest with
    | some v => .ok (v : Int)
    | none => .error .parseIntError
  | 45 :: rest =>
    match digitsVal rest with
    | some v => .ok (-(v : Int))
    | none => .error .parseIntError
  | _ =>
    match digitsVal s with
    | some v => .ok (v : Int)
    | none => .error .parseIntError

/-- `parse_length`: locate the header CRLF and parse the length digits
between the prefix and the CRLF as a `usize`. -/
def parseLength (buf : List Nat) (pfx : List Nat) :
    Except RespError (Nat × Nat) :=
  match extractSimpleFrameData buf pfx with
  | .error e => .error e
  | .ok e =>
    match parseUsize ((buf.drop pfx.length).take (e - pfx.length)) with
    | .error er => .error er
    | .ok n => .ok (e, n)

/-! `str::parse::<f64>()` over the finite-number grammar
`[sign] (digits [. digits] | . digits) [(e|E) [sign] digits]`; the special
spellings (`inf`, `NaN`) are outside the rational model. -/

/-- Split at the first occurrence of byte `b`. -/
def splitAtFirst (b : Nat) : List Nat → List Nat × Option (List Nat)
  | [] => ([], none)
  | x :: xs =>
    if x = b then ([], some xs)
    else
      let p := splitAtFirst b xs
      (x :: p.1, p.2)

/-- Split at the first `e`/`E` exponent marker. -/
def splitAtExpMark : List Nat → List Nat × Option (List Nat)
  | [] => ([], none)
  | x :: xs =>
    if x = 101 || x = 69 then ([], some xs)
    else
      let p := splitAtExpMark xs
      (x :: p.1, p.2)

/-- Is every byte an ASCII digit? -/
def allDigits (l : List Nat) : Bool := l.all fun d => 48 ≤ d && d ≤ 57

/-- Value of a digit run (digits assumed). -/
def digitsNat (l : List Nat) : Nat := l.foldl (fun a d => a * 10 + (d - 48)) 0

/-- Mantissa `digits [. digits]` (at least one digit somewhere). -/
def parseMantissa (s : List Nat) : Option ℚ :=
  match splitAtFirst 46 s with
  | (ip, none) =>
    if ip ≠ [] && allDigits ip then some (digitsNat ip : ℚ) else none
  | (ip, some fp) =>
    if allDigits ip && allDigits fp && (ip ≠ [] || fp ≠ []) then
      some ((digitsNat ip : ℚ) + (digitsNat fp : ℚ) / (10 ^ fp.length))
    else none

/-- `str::parse::<f64>()` on the finite-number grammar. -/
def parseF64 (s : List Nat) : Except RespError ℚ :=
  let p := match s with
    | 43 :: r => ((1 : ℚ), r)
    | 45 :: r => ((-1 : ℚ), r)
    | _ => ((1 : ℚ), s)
  match splitAtExpMark p.2 with
  | (m, none) =>
    match parseMantissa m with
    | some q => .ok (p.1 * q)
    | none => .error .parseFloatError
  | (m, some ex) =>
    let pe := match ex with
      | 43 :: r => ((1 : Int), r)
      | 45 :: r => ((-1 : Int), r)
      | _ => ((1 : Int), ex)
    match parseMantissa m with
    | none => .error .parseFloatError
    | some q =>
      if pe.2 ≠ [] && allDigits pe.2 then
        .ok (p.1 * q * (10 : ℚ) ^ (pe.1 * (digitsNat pe.2 : Int)))
      else .error .parseFloatError

/-! ## Read-only length probes (`expect_length`, two-phase step 2)

The mutually recursive walk is defined with a fuel parameter that strictly
decreases at every recursive call; fuel `buf.length + 1` is always ample
because every probed child occupies at least three bytes. Exhausted fuel
reports `notComplete`. -/

/-- `expect_length` of the simple (CRLF-terminated) frames: SimpleString,
SimpleError, Integer, Double. -/
def simpleExpectLen (buf : List Nat) (pfx : List Nat) : Except RespError Nat :=
  match extractSimpleFrameData buf pfx with
  | .error e => .error e
  | .ok e => .ok (e + 2)

/-- `BulkString::expect_length`: header + CRLF + payload + CRLF. -/
def bulkStringExpectLen (buf : List Nat) : Except RespError Nat :=
  match parseLength buf [36] with
  | .error e => .error e
  | .ok (e, len) => .ok (e + 2 + len + 2)

mutual

/-- `RespFrame::expect_length`: dispatch on the first byte. -/
def frameExpectLen : Nat → List Nat → Except RespError Nat
  | 0, _ => .error .notComplete
  | f + 1, buf =>
    match buf.head? with
    | none => .error .notComplete
    | some b =>
      if b = 42 then compositeExpectLen f buf 42
      else if b = 126 then compositeExpectLen f buf 126
      else if b = 37 then compositeExpectLen f buf 37
      else if b = 36 then bulkStringExpectLen buf
      else if b = 58 then simpleExpectLen buf [58]
      else if b = 43 then simpleExpectLen buf [43]
      else if b = 45 then simpleExpectLen buf [45]
      else if b = 35 then .ok 4
      else if b = 44 then simpleExpectLen buf [44]
      else if b = 95 then .ok 3
      else .error .notComplete
termination_by structural f _ => f

/-- `RespArray/RespSet/RespMap::expect_length`: parse the length header, then
`calc_total_len`. -/
def compositeExpectLen : Nat → List Nat → Nat → Except RespError Nat
  | 0, _, _ => .error .notComplete
  | f + 1, buf, pfxB =>
    match parseLength buf [pfxB] with
    | .error e => .error e
    | .ok (e, len) => calcTotalLen f buf e len pfxB
termination_by structural f _ _ => f

/-- `calc_total_len` (src/resp/mod.rs): for `*`/`~` walk `len` child frames,
for `%` walk `len` key-value pairs, otherwise `len + CRLF_LEN`. -/
def calcTotalLen : Nat → List Nat → Nat → Nat → Nat → Except RespError Nat
  | 0, _, _, _, _ => .error .notComplete
  | f + 1, buf, e, len, pfxB =>
    if pfxB = 42 || pfxB = 126 then walkFrames f len (buf.drop (e + 2)) (e + 2)
    else if pfxB = 37 then walkPairs f len (buf.drop (e + 2)) (e + 2)
    else .ok (len + 2)
termination_by structural f _ _ _ _ => f

/-- The `*`/`~` loop of `calc_total_len`: sum the expected length of each of
the remaining child frames. -/
def walkFrames : Nat → Nat → List Nat → Nat → Except RespError Nat
  | 0, _, _, _ => .error .notComplete
  | _ + 1, 0, _, total => .ok total
  | f + 1, n + 1, data, total =>
    match frameExpectLen f data with
    | .error e => .error e
    | .ok l => walkFrames f n (data.drop l) (total + l)
termination_by structural f _ _ _ => f

/-- The `%` loop of `calc_total_len`: a SimpleString key probe then a frame
probe per entry. -/
def walkPairs : Nat → Nat → List Nat → Nat → Except RespError Nat
  | 0, _, _, _ => .error .notComplete
  | _ + 1, 0, _, total => .ok total
  | f + 1, n + 1, data, total =>
    match simpleExpectLen data [43] with
    | .error e => .error e
    | .ok l1 =>
      match frameExpectLen f (data.drop l1) with
      | .error e => .error e
      | .ok l2 => walkPairs f n ((data.drop l1).drop l2) (total + l1 + l2)
termination_by structural f _ _ _ => f

end

/-- `RespFrame::expect_length` at its natural fuel. -/
def respFrameExpectLength (buf : List Nat) : Except RespError Nat :=
  frameExpectLen (buf.length + 1) buf

/-! ## Decoders

Each decoder returns its result together with the buffer it leaves behind,
making consumption on every path explicit (`&mut BytesMut` state passing). -/

/-- `extract_fixed_data`: length check, prefix check, then advance past the
expected bytes.  No byte is consumed on either error. -/
def extractFixedData (buf : List Nat) (expected : List Nat) :
    Except RespError Unit × List Nat :=
  if buf.length < expected.length then (.error .notComplete, buf)
  else if ¬ startsWithB buf expected then (.error .invalidFrameType, buf)
  else (.ok (), buf.drop expected.length)

/-- `SimpleString::decode` returning the raw `String` bytes: locate the CRLF,
split the frame off, lossy-convert the payload between prefix and CRLF. -/
def ssDecodeRaw (buf : List Nat) : Except RespError (List Nat) × List Nat :=
  match extractSimpleFrameData buf [43] with
  | .error e => (.error e, buf)
  | .ok e => (.ok (utf8Lossy ((buf.drop 1).take (e - 1))), buf.drop (e + 2))

/-- `SimpleString::decode`. -/
def simpleStringDecode (buf : List Nat) : Except RespError RespFrame × List Nat :=
  match ssDecodeRaw buf with
  | (.ok s, b2) => (.ok (.simpleString s), b2)
  | (.error e, b2) => (.error e, b2)

/-- `SimpleError::decode`. -/
def simpleErrorDecode (buf : List Nat) : Except RespError RespFrame × List Nat :=
  match extractSimpleFrameData buf [45] with
  | .error e => (.error e, buf)
  | .ok e =>
    (.ok (.simpleError (utf8Lossy ((buf.drop 1).take (e - 1)))), buf.drop (e + 2))

/-- `i64::decode`: the source splits the frame bytes off before parsing, so a
parse failure leaves the buffer advanced past the frame. -/
def i64Decode (buf : List Nat) : Except RespError RespFrame × List Nat :=
  match extractSimpleFrameData buf [58] with
  | .error e => (.error e, buf)
  | .ok e =>
    match parseI64 ((buf.drop 1).take (e - 1)) with
    | .error er => (.error er, buf.drop (e + 2))
    | .ok n => (.ok (.integer n), buf.drop (e + 2))

/-- `f64::decode` (the missing `src/resp/double.rs`, identical to the legacy
copy in src/resp/decode.rs): split the frame off, then parse. -/
def f64Decode (buf : List Nat) : Except RespError RespFrame × List Nat :=
  match extractSimpleFrameData buf [44] with
  | .error e => (.error e, buf)
  | .ok e =>
    match parseF64 ((buf.drop 1).take (e - 1)) with
    | .error er => (.error er, buf.drop (e + 2))
    | .ok q => (.ok (.double q), buf.drop (e + 2))

/-- `bool::decode`: try `#t\r\n`, on any failure try `#f\r\n`. -/
def boolDecode (buf : List Nat) : Except RespError RespFrame × List Nat :=
  match extractFixedData buf [35, 116, 13, 10] with
  | (.ok _, b2) => (.ok (.boolean true), b2)
  | (.error _, _) =>
    match extractFixedData buf [35, 102, 13, 10] with
    | (.ok _, b2) => (.ok (.boolean false), b2)
    | (.error e, _) => (.error e, buf)

/-- `RespNull::decode`: the fixed sentinel `_\r\n`. -/
def nullDecode (buf : List Nat) : Except RespError RespFrame × List Nat :=
  match extractFixedData buf [95, 13, 10] with
  | (.ok _, b2) => (.ok (.null), b2)
  | (.error e, _) => (.error e, buf)

/-- `RespNullArray::decode`: the fixed sentinel `*-1\r\n`. -/
def nullArrayDecode (buf : List Nat) : Except RespError RespFrame × List Nat :=
  match extractFixedData buf [42, 45, 49, 13, 10] with
  | (.ok _, b2) => (.ok (.nullArray), b2)
  | (.error e, _) => (.error e, buf)

/-- `RespNullBulkString::decode`: the fixed sentinel `$-1\r\n`.  (Defined by
the source but never invoked by `RespFrame::decode`, whose `$` arm probes
`RespNullArray::decode` instead.) -/
def nullBulkStringDecode (buf : List Nat) : Except RespError RespFrame × List Nat :=
  match extractFixedData buf [36, 45, 49, 13, 10] with
  | (.ok _, b2) => (.ok (.nullBulkString), b2)
  | (.error e, _) => (.error e, buf)

/-- `BulkString::decode`: parse the length header, check the payload and its
CRLF are present before consuming anything, then split them off. -/
def bulkStringDecode (buf : List Nat) : Except RespError RespFrame × List Nat :=
  match parseLength buf [36] with
  | .error e => (.error e, buf)
  | .ok (e, len) =>
    if (buf.drop (e + 2)).length < len + 2 then (.error .notComplete, buf)
    else
      (.ok (.bulkString ((buf.drop (e + 2)).take len)),
       buf.drop (e + 2 + (len + 2)))

/-- `HashMap::insert`: replace the value at an existing key, else add the
entry. -/
def mapInsert (k : List Nat) (v : RespFrame) :
    List (List Nat × RespFrame) → List (List Nat × RespFrame)
  | [] => [(k, v)]
  | (k', v') :: rest =>
    if k' = k then (k, v) :: rest else (k', v') :: mapInsert k v rest

mutual

/-- `RespFrame::decode` (src/resp/frame.rs): peek at the first byte and route
to the concrete decoder.  For `$` and `*` the source probes
`RespNullArray::decode` first (the `$` arm's comment says "try null bulk
string first", but `RespNullArray::decode` is what it calls); `NotComplete`
from the probe is returned as-is, any other probe error falls through to the
non-null decoder. -/
def frameDecode : Nat → List Nat → Except RespError RespFrame × List Nat
  | 0, buf => (.error .notComplete, buf)
  | f + 1, buf =>
    match buf.head? with
    | none => (.error .notComplete, buf)
    | some b =>
      if b = 43 then simpleStringDecode buf
      else if b = 45 then simpleErrorDecode buf
      else if b = 58 then i64Decode buf
      else if b = 36 then
        match nullArrayDecode buf with
        | (.ok fr, b2) => (.ok fr, b2)
        | (.error .notComplete, _) => (.error .notComplete, buf)
        | (.error _, _) => bulkStringDecode buf
      else if b = 42 then
        match nullArrayDecode buf with
        | (.ok fr, b2) => (.ok fr, b2)
        | (.error .notComplete, _) => (.error .notComplete, buf)
        | (.error _, _) => arrayDecode f buf
      else if b = 95 then nullDecode buf
      else if b = 35 then boolDecode buf
      else if b = 44 then f64Decode buf
      else if b = 37 then mapDecode f buf
      else if b = 126 then setDecode f buf
      else (.error .invalidFrameType, buf)
termination_by structural f _ => f

/-- `RespArray::decode`: parse the header, total-size probe via
`calc_total_len`, commit only when the whole composite fits, then decode the
children (which mutate the buffer as they go). -/
def arrayDecode : Nat → List Nat → Except RespError RespFrame × List Nat
  | 0, buf => (.error .notComplete, buf)
  | f + 1, buf =>
    match parseLength buf [42] with
    | .error e => (.error e, buf)
    | .ok (e, len) =>
      match calcTotalLen (buf.length + 1) buf e len 42 with
      | .error er => (.error er, buf)
      | .ok total =>
        if buf.length < total then (.error .notComplete, buf)
        else
          match decodeChildren f len (buf.drop (e + 2)) with
          | (.ok frames, b2) => (.ok (.array frames), b2)
          | (.error er, b2) => (.error er, b2)
termination_by structural f _ => f

/-- `RespSet::decode`: identical shape to `RespArray::decode` with the `~`
prefix. -/
def setDecode : Nat → List Nat → Except RespError RespFrame × List Nat
  | 0, buf => (.error .notComplete, buf)
  | f + 1, buf =>
    match parseLength buf [126] with
    | .error e => (.error e, buf)
    | .ok (e, len) =>
      match calcTotalLen (buf.length + 1) buf e len 126 with
      | .error er => (.error er, buf)
      | .ok total =>
        if buf.length < total then (.error .notComplete, buf)
        else
          match decodeChildren f len (buf.drop (e + 2)) with
          | (.ok frames, b2) => (.ok (.set frames), b2)
          | (.error er, b2) => (.error er, b2)
termination_by structural f _ => f

/-- `RespMap::decode`: header, total-size probe, commit, then decode
`len` SimpleString-key/frame-value pairs into the map. -/
def mapDecode : Nat → List Nat → Except RespError RespFrame × List Nat
  | 0, buf => (.error .notComplete, buf)
  | f + 1, buf =>
    match parseLength buf [37] with
    | .error e => (.error e, buf)
    | .ok (e, len) =>
      match calcTotalLen (buf.length + 1) buf e len 37 with
      | .error er => (.error er, buf)
      | .ok total =>
        if buf.length < total then (.error .notComplete, buf)
        else
          match decodePairs f len [] (buf.drop (e + 2)) with
          | (.ok entries, b2) => (.ok (.map entries), b2)
          | (.error er, b2) => (.error er, b2)
termination_by structural f _ => f

/-- The child loop of `RespArray::decode` / `RespSet::decode`. -/
def decodeChildren :
    Nat → Nat → List Nat → Except RespError (List RespFrame) × List Nat
  | 0, _, buf => (.error .notComplete, buf)
  | _ + 1, 0, buf => (.ok [], buf)
  | f + 1, n + 1, buf =>
    match frameDecode f buf with
    | (.ok fr, b2) =>
      match decodeChildren f n b2 with
      | (.ok frames, b3) => (.ok (fr :: frames), b3)
      | (.error e, b3) => (.error e, b3)
    | (.error e, b2) => (.error e, b2)
termination_by structural f _ _ => f

/-- The entry loop of `RespMap::decode`: decode a SimpleString key and a
frame value, `insert` into the accumulated map. -/
def decodePairs :
    Nat → Nat → List (List Nat × RespFrame) → List Nat →
    Except RespError (List (List Nat × RespFrame)) × List Nat
  | 0, _, _, buf => (.error .notComplete, buf)
  | _ + 1, 0, acc, buf => (.ok acc, buf)
  | f + 1, n + 1, acc, buf =>
    match ssDecodeRaw buf with
    | (.error e, b2) => (.error e, b2)
    | (.ok k, b2) =>
      match frameDecode f b2 with
      | (.error e, b3) => (.error e, b3)
      | (.ok v, b3) => decodePairs f n (mapInsert k v acc) b3
termination_by structural f _ _ _ => f

end

/-- `RespFrame::decode` at its natural fuel (ample: every recursive step
consumes at least one byte of header). -/
def respFrameDecode (buf : List Nat) : Except RespError RespFrame × List Nat :=
  frameDecode (buf.length + 1) buf

/-! ## Storage backend

`src/backend.rs` is not under the provided sources (only its callers in
src/cmd and src/network.rs are), so the backend is modelled from the spec.
The two concurrent maps become association lists; per-operation atomicity of
the real concurrent maps corresponds to the sequential state passing here. -/

/-- Association-list lookup (point read of a concurrent map). -/
def alistGet {α : Type} (k : List Nat) : List (List Nat × α) → Option α
  | [] => none
  | (k', v) :: rest => if k' = k then some v else alistGet k rest

/-- Association-list write: replace the value at an existing key, else add
the entry (point write of a concurrent map). -/
def alistPut {α : Type} (k : List Nat) (v : α) :
    List (List Nat × α) → List (List Nat × α)
  | [] => [(k, v)]
  | (k', v') :: rest =>
    if k' = k then (k, v) :: rest else (k', v') :: alistPut k v rest

/-- Modelled from the spec: the `Backend` of the missing `src/backend.rs` —
"two logical mappings: `kv`: key (text) → frame; `hmap`: key (text) →
(field (text) → frame)".  Keys and fields are the UTF-8 bytes of the Rust
`String`s. -/
structure Backend where
  kv : List (List Nat × RespFrame)
  hmap : List (List Nat × List (List Nat × RespFrame))

/-- Modelled from the spec: `get(key) → Option<frame>` — read current
value. -/
def backendGet (k : List Nat) (b : Backend) : Option RespFrame :=
  alistGet k b.kv

/-- Modelled from the spec: `set(key, frame)` — unconditional write. -/
def backendSet (k : List Nat) (v : RespFrame) (b : Backend) : Backend :=
  { b with kv := alistPut k v b.kv }

/-- Modelled from the spec: `hget(key, field) → Option<frame>`. -/
def backendHGet (k fld : List Nat) (b : Backend) : Option RespFrame :=
  (alistGet k b.hmap).bind (alistGet fld)

/-- Modelled from the spec: `hset(key, field, frame)` — unconditional write;
creates the outer hash on first field. -/
def backendHSet (k fld : List Nat) (v : RespFrame) (b : Backend) : Backend :=
  match alistGet k b.hmap with
  | some m => { b with hmap := alistPut k (alistPut fld v m) b.hmap }
  | none => { b with hmap := alistPut k [(fld, v)] b.hmap }

/-- Modelled from the spec: `hgetall(key) → Option<Snapshot>` — an iterable
snapshot of all (field, value) pairs under `key`, `None` when absent.  The
snapshot invariant of a map is that its fields are distinct. -/
def backendHGetAll (k : List Nat) (b : Backend) : Option (List (List Nat × RespFrame)) :=
  alistGet k b.hmap

/-! ## Command layer (src/cmd/mod.rs, src/cmd/map.rs, src/cmd/hmap.rs) -/

/-- `CommandError` (src/cmd/mod.rs), messages and payloads dropped except
the arity payload. -/
inductive CommandError where
  | invalidCommand
  | invalidCommandFormat
  | invalidCommandArguments
  | invalidCommandArgumentsLength (n : Nat)
  | commandNotFound
  | respError (e : RespError)
  | fromUtf8Error
  deriving DecidableEq, Repr

/-- The `Command` sum (src/cmd/mod.rs).  Key/field `String`s are modelled by
their UTF-8 bytes. -/
inductive Command where
  | get (key : List Nat)
  | set (key : List Nat) (value : RespFrame)
  | hget (key fld : List Nat)
  | hset (key fld : List Nat) (value : RespFrame)
  | hgetall (key : List Nat) (sort : Bool)
  | unrecognized

/-- `RESP_OK`: the canonical `+OK` SimpleString reply. -/
def RESP_OK : RespFrame := .simpleString [79, 75]

/-- Byte-lexicographic `≤` — `Ord` on Rust `String`/byte slices. -/
def lexLe : List Nat → List Nat → Bool
  | [], _ => true
  | _ :: _, [] => false
  | a :: as', b :: bs => if a < b then true else if b < a then false else lexLe as' bs

/-- Ordered insertion for the stable sort modelling `sort_by`. -/
def insertPair (x : List Nat × RespFrame) :
    List (List Nat × RespFrame) → List (List Nat × RespFrame)
  | [] => [x]
  | y :: ys => if lexLe x.1 y.1 then x :: y :: ys else y :: insertPair x ys

/-- `data.sort_by(|a, b| a.0.cmp(&b.0))`: Rust's stable sort by the key
comparator, modelled by (stable) insertion sort. -/
def sortPairs : List (List Nat × RespFrame) → List (List Nat × RespFrame)
  | [] => []
  | x :: xs => insertPair x (sortPairs xs)

/-- `CommandExecutor::execute` (map.rs, hmap.rs, mod.rs): the response frame
together with the backend state after the call. -/
def commandExecute : Command → Backend → RespFrame × Backend
  | .get k, b => ((backendGet k b).getD .null, b)
  | .set k v, b => (RESP_OK, backendSet k v b)
  | .hget k fld, b => ((backendHGet k fld b).getD .null, b)
  | .hset k fld v, b => (RESP_OK, backendHSet k fld v b)
  | .hgetall k s, b =>
    (match backendHGetAll k b with
     | some m =>
       let data := if s then sortPairs m else m
       .array (data.flatMap fun p => [.bulkString p.1, p.2])
     | none => .null, b)
  | .unrecognized, b => (RESP_OK, b)

/-- `u8::to_ascii_lowercase` on a byte. -/
def asciiLower (b : Nat) : Nat := if 65 ≤ b && b ≤ 90 then b + 32 else b

/-- `to_ascii_lowercase` on a byte string. -/
def asciiLowerBytes (l : List Nat) : List Nat := l.map asciiLower

/-- `u8::is_ascii_whitespace`. -/
def isAsciiWs (b : Nat) : Bool := b = 32 || b = 9 || b = 10 || b = 12 || b = 13

/-- `slice::trim_ascii`: strip leading and trailing ASCII whitespace. -/
def trimAscii (l : List Nat) : List Nat :=
  ((l.dropWhile isAsciiWs).reverse.dropWhile isAsciiWs).reverse

/-- The name-check loop of `validate_command`: element `i` must be a
BulkString equal (ASCII-case-insensitively) to `names[i]`. -/
def validateNames : List RespFrame → List (List Nat) → Except CommandError Unit
  | _, [] => .ok ()
  | [], _ :: _ => .error .invalidCommand
  | v :: vs, n :: ns =>
    match v with
    | .bulkString cmd =>
      if asciiLowerBytes cmd ≠ asciiLowerBytes n then .error .invalidCommand
      else validateNames vs ns
    | _ => .error .invalidCommand

/-- `validate_command` (src/cmd/mod.rs): arity check, then the name check. -/
def validateCommand (value : List RespFrame) (names : List (List Nat))
    (nArgs : Nat) : Except CommandError Unit :=
  if value.length ≠ nArgs + names.length then .error .invalidCommandArguments
  else validateNames value names

/-- `TryFrom<RespArray> for Get` (src/cmd/map.rs). -/
def getTryFrom (v : List RespFrame) : Except CommandError Command :=
  match validateCommand v [[103, 101, 116]] 1 with
  | .error e => .error e
  | .ok _ =>
    match (v.drop 1).head? with
    | some (.bulkString key) =>
      if utf8Valid key then .ok (.get key) else .error .fromUtf8Error
    | _ => .error .invalidCommand

/-- `TryFrom<RespArray> for Set` (src/cmd/map.rs). -/
def setTryFrom (v : List RespFrame) : Except CommandError Command :=
  match validateCommand v [[115, 101, 116]] 2 with
  | .error e => .error e
  | .ok _ =>
    match (v.drop 1).head?, (v.drop 2).head? with
    | some (.bulkString key), some value =>
      if utf8Valid key then .ok (.set key value) else .error .fromUtf8Error
    | _, _ => .error .invalidCommand

/-- `TryFrom<RespArray> for HGet` (src/cmd/hmap.rs). -/
def hgetTryFrom (v : List RespFrame) : Except CommandError Command :=
  match validateCommand v [[72, 71, 69, 84]] 2 with
  | .error e => .error e
  | .ok _ =>
    match (v.drop 1).head?, (v.drop 2).head? with
    | some (.bulkString key), some (.bulkString fld) =>
      if utf8Valid key && utf8Valid fld then .ok (.hget key fld)
      else .error .fromUtf8Error
    | _, _ => .error .invalidCommand

/-- `TryFrom<RespArray> for HSet` (src/cmd/hmap.rs). -/
def hsetTryFrom (v : List RespFrame) : Except CommandError Command :=
  match validateCommand v [[72, 83, 69, 84]] 3 with
  | .error e => .error e
  | .ok _ =>
    match (v.drop 1).head?, (v.drop 2).head?, (v.drop 3).head? with
    | some (.bulkString key), some (.bulkString fld), some value =>
      if utf8Valid key && utf8Valid fld then .ok (.hset key fld value)
      else .error .fromUtf8Error
    | _, _, _ => .error .invalidCommand

/-- `TryFrom<RespArray> for HGetAll` (src/cmd/hmap.rs): the constructed
command always carries `sort: false`. -/
def hgetallTryFrom (v : List RespFrame) : Except CommandError Command :=
  match validateCommand v [[72, 71, 69, 84, 65, 76, 76]] 1 with
  | .error e => .error e
  | .ok _ =>
    match (v.drop 1).head? with
    | some (.bulkString key) =>
      if utf8Valid key then .ok (.hgetall key false) else .error .fromUtf8Error
    | _ => .error .invalidCommand

/-- `TryFrom<RespArray> for Command` (src/cmd/mod.rs): lossy-convert the
trimmed first BulkString, lowercase it, and dispatch; unknown names parse as
`Unrecognized`. -/
def commandTryFrom (v : List RespFrame) : Except CommandError Command :=
  match v.head? with
  | some (.bulkString cmd) =>
    let name := asciiLowerBytes (utf8Lossy (trimAscii cmd))
    if name = [103, 101, 116] then getTryFrom v
    else if name = [115, 101, 116] then setTryFrom v
    else if name = [104, 103, 101, 116] then hgetTryFrom v
    else if name = [104, 115, 101, 116] then hsetTryFrom v
    else if name = [104, 103, 101, 116, 97, 108, 108] then hgetallTryFrom v
    else .ok .unrecognized
  | _ => .error .invalidCommand

/-- `TryFrom<RespFrame> for Command` (src/cmd/mod.rs): only Array frames can
become commands. -/
def commandTryFromFrame : RespFrame → Except CommandError Command
  | .array a => commandTryFrom a
  | _ => .error .invalidCommand

/-- The `sort` flag carried by a parse result (`false` when the result is
not an `HGetAll` command). -/
def sortFlagOf : Except CommandError Command → Bool
  | .ok (.hgetall _ s) => s
  | _ => false

/-- A byte string with no embedded CRLF pair. -/
def crlfFree : List Nat → Bool
  | [] => true
  | [_] => true
  | a :: b :: rest => if a = 13 ∧ b = 10 then false else crlfFree (b :: rest)

/-- Is this error the `Utf8Error`-carrying variant (`ParseBulkStringError`)?
-/
def errUtf8 : RespError → Bool
  | .parseBulkStringError => true
  | _ => false

/-- Does a decode result carry a UTF-8 error? -/
def resultUtf8Err : Except RespError (List Nat) × List Nat → Bool
  | (.error e, _) => errUtf8 e
  | (.ok _, _) => false

/-- Is this error the `InvalidFrameLength` variant? -/
def errIFL : RespError → Bool
  | .invalidFrameLength _ => true
  | _ => false

/-- Does a result carry the `InvalidFrameLength` error? -/
def isIFL {α : Type} : Except RespError α → Bool
  | .error e => errIFL e
  | .ok _ => false

/-!
## Claim C1 — the `$` sentinel probe

The claim says `RespFrame::decode` on a buffer starting `$-1\r\n` returns the
NullBulkString frame and removes those five bytes.  The source's `$` arm
probes `RespNullArray::decode` (the `*-1\r\n` sentinel) instead of
`RespNullBulkString::decode`, so the probe mismatches, falls through to
`BulkString::decode`, and `parse_length` fails on `"-1"` with a
`ParseIntError`.  The second half of the claim (fewer than five bytes of a
possible sentinel give `Incomplete`) does hold: the fixed-data probe
length-checks before comparing content.  The dedicated
`RespNullBulkString::decode` would have succeeded — the dispatch arm is the
slip. -/

/-- C1: at the failing input `$-1\r\n`, `RespFrame::decode` returns
`ParseIntError` and leaves the buffer untouched instead of producing the
NullBulkString frame; a shorter `$-1\r` still gives `Incomplete`; the
bypassed `RespNullBulkString::decode` itself accepts the sentinel. -/
theorem c1_dollar_sentinel_probe_eval :
    respFrameDecode [36, 45, 49, 13, 10] =
      (.error .parseIntError, [36, 45, 49, 13, 10]) ∧
    respFrameDecode [36, 45, 49, 13] =
      (.error .notComplete, [36, 45, 49, 13]) ∧
    nullBulkStringDecode [36, 45, 49, 13, 10] = (.ok .nullBulkString, []) := by
  exact ⟨rfl, rfl, rfl⟩

/-!
## Claim C2 — round trip `decode(encode(F)) = F`

A counterexample to the claimed round trip, caused by the C1 slip:
`encode(NullBulkString) = $-1\r\n`, which `RespFrame::decode` rejects with
`ParseIntError`.  A second independent failure: `encode(Array []) = *0\r\n`
is only four bytes, the `*` arm's `RespNullArray` probe demands five bytes
before looking at content and its `NotComplete` is returned as-is, so the
empty array is reported `Incomplete` forever. -/

/-- C2: the round trip fails on the code: decoding the encoding of
NullBulkString yields `ParseIntError`, and decoding the encoding of the
empty Array yields `NotComplete`, not the original frames. -/
theorem c2_roundtrip_fails_eval :
    frameEncode .nullBulkString = [36, 45, 49, 13, 10] ∧
    respFrameDecode (frameEncode .nullBulkString) =
      (.error .parseIntError, [36, 45, 49, 13, 10]) ∧
    frameEncode (.array []) = [42, 48, 13, 10] ∧
    respFrameDecode (frameEncode (.array [])) =
      (.error .notComplete, [42, 48, 13, 10]) := by
  exact ⟨rfl, rfl, rfl, rfl⟩

/-!
## Claim C3 — incremental completeness

For `E = encode(Array []) = *0\r\n` every proper prefix does yield
`Incomplete`, but feeding `E` whole also yields `Incomplete` (see C2), so no
amount of appending ever makes the retry "return the same frame as feeding
`E` whole" — decoding `E` whole never returns a frame at all. -/

/-- C3: at the failing encoded frame `E = encode(Array []) = *0\r\n`, every
proper prefix of `E` decodes to `Incomplete` as claimed, but `E` whole also
decodes to `Incomplete` rather than a frame, so the claimed retry equality
is unsatisfiable. -/
theorem c3_split_feed_empty_array_eval :
    respFrameDecode [] = (.error .notComplete, []) ∧
    respFrameDecode [42] = (.error .notComplete, [42]) ∧
    respFrameDecode [42, 48] = (.error .notComplete, [42, 48]) ∧
    respFrameDecode [42, 48, 13] = (.error .notComplete, [42, 48, 13]) ∧
    respFrameDecode (frameEncode (.array [])) =
      (.error .notComplete, [42, 48, 13, 10]) := by
  exact ⟨rfl, rfl, rfl, rfl, rfl⟩

/-!
## Claim C4 — no consumption on `Incomplete`

The two-phase design (total-size probe before commit) is meant to guarantee
that `NotComplete` never escapes after bytes have been consumed.  It fails
for `*1\r\n*0\r\n`: the probe walk computes the child `*0\r\n` to be 4 bytes
via `RespArray::expect_length`, the outer array commits and advances past
its 4-byte header, and then the child's `*` arm hits the 5-byte
`RespNullArray` probe, whose `NotComplete` propagates — with the outer
header already consumed. -/

/-- C4: at the failing input `*1\r\n*0\r\n` (8 bytes), `RespFrame::decode`
returns `Incomplete` but leaves only the last 4 bytes in the buffer: the
outer array header has been consumed, contradicting the claimed
byte-for-byte preservation. -/
theorem c4_incomplete_consumes_bytes_eval :
    respFrameDecode [42, 49, 13, 10, 42, 48, 13, 10] =
      (.error .notComplete, [42, 48, 13, 10]) := by
  exact rfl

/-! ## Claim C5 — GET/SET against the backend -/

/-- A write is read back: lookup after update at the same key. -/
theorem alistGet_alistPut {α : Type} (k : List Nat) (v : α)
    (l : List (List Nat × α)) : alistGet k (alistPut k v l) = some v := by
  induction l with
  | nil => simp [alistPut, alistGet]
  | cons hd tl ih =>
    obtain ⟨k', v'⟩ := hd
    by_cases hk : k' = k
    · simp [alistPut, hk, alistGet]
    · simp [alistPut, hk, alistGet, ih]

/-- C5: `SET k v` replies with the SimpleString `OK`, a following `GET k`
returns exactly `v`, and `GET` of any key the backend does not hold returns
the Null frame. -/
theorem c5_set_then_get (k : List Nat) (v : RespFrame) (b : Backend) :
    (commandExecute (.set k v) b).1 = RESP_OK ∧
    (commandExecute (.get k) (commandExecute (.set k v) b).2).1 = v ∧
    (∀ k' b', backendGet k' b' = none →
      (commandExecute (.get k') b').1 = RespFrame.null) := by
  refine ⟨rfl, ?_, ?_⟩
  · simp [commandExecute, backendGet, backendSet, alistGet_alistPut]
  · intro k' b' h
    simp [commandExecute, h]

/-- C5 witness: a concrete SET/GET round trip on the empty backend, and a
concrete miss. -/
theorem c5_set_then_get_witness :
    (commandExecute (.set [104] .nullBulkString) ⟨[], []⟩).1 = RESP_OK ∧
    (commandExecute (.get [104])
      (commandExecute (.set [104] .nullBulkString) ⟨[], []⟩).2).1 =
        .nullBulkString ∧
    backendGet [120] ⟨[], []⟩ = none ∧
    (commandExecute (.get [120]) ⟨[], []⟩).1 = RespFrame.null := by
  refine ⟨(c5_set_then_get [104] .nullBulkString ⟨[], []⟩).1,
    (c5_set_then_get [104] .nullBulkString ⟨[], []⟩).2.1, rfl,
    (c5_set_then_get [104] .nullBulkString ⟨[], []⟩).2.2 [120] ⟨[], []⟩ rfl⟩

/-! ## Claim C6 — HGETALL with the sort flag -/

/-- `lexLe` is total. -/
theorem lexLe_total (a b : List Nat) : lexLe a b = true ∨ lexLe b a = true := by
  induction a generalizing b with
  | nil => left; rfl
  | cons x xs ih =>
    cases b with
    | nil => right; rfl
    | cons y ys =>
      by_cases h1 : x < y
      · left; simp [lexLe, h1]
      · by_cases h2 : y < x
        · right; simp [lexLe, h2]
        · have hxy : x = y := by omega
          subst hxy
          rcases ih ys with h | h
          · left; simp [lexLe, h]
          · right; simp [lexLe, h]

/-- `lexLe` is transitive. -/
theorem lexLe_trans {a b c : List Nat} (h1 : lexLe a b = true)
    (h2 : lexLe b c = true) : lexLe a c = true := by
  induction a generalizing b c with
  | nil => rfl
  | cons x xs ih =>
    cases b with
    | nil => simp [lexLe] at h1
    | cons y ys =>
      cases c with
      | nil => simp [lexLe] at h2
      | cons z zs =>
        simp only [lexLe] at h1 h2 ⊢
        split_ifs at h1 h2 ⊢ with hxy hyx hyz hzy hxz hzx
        all_goals first | rfl | omega | (exact ih h1 h2)

/-- `insertPair` is a permutation-preserving insertion. -/
theorem insertPair_perm (x : List Nat × RespFrame)
    (l : List (List Nat × RespFrame)) : (insertPair x l).Perm (x :: l) := by
  induction l with
  | nil => exact .refl _
  | cons y ys ih =>
    simp only [insertPair]
    split
    · exact .refl _
    · exact (ih.cons y).trans (List.Perm.swap x y ys)

/-- `sortPairs` permutes its input. -/
theorem sortPairs_perm (l : List (List Nat × RespFrame)) :
    (sortPairs l).Perm l := by
  induction l with
  | nil => exact .refl _
  | cons x xs ih =>
    simp only [sortPairs]
    exact (insertPair_perm x (sortPairs xs)).trans (ih.cons x)

/-- Insertion preserves sortedness by key. -/
theorem pairwise_insertPair (x : List Nat × RespFrame)
    (l : List (List Nat × RespFrame))
    (h : l.Pairwise fun p q => lexLe p.1 q.1 = true) :
    (insertPair x l).Pairwise fun p q => lexLe p.1 q.1 = true := by
  induction l with
  | nil => simp [insertPair]
  | cons y ys ih =>
    rcases List.pairwise_cons.mp h with ⟨hy, hys⟩
    simp only [insertPair]
    split
    · rename_i hxy
      refine List.pairwise_cons.mpr ⟨?_, h⟩
      intro p hp
      rcases List.mem_cons.mp hp with rfl | hp
      · exact hxy
      · exact lexLe_trans hxy (hy p hp)
    · rename_i hxy
      have hyx : lexLe y.1 x.1 = true := by
        rcases lexLe_total x.1 y.1 with h' | h'
        · exact absurd h' hxy
        · exact h'
      refine List.pairwise_cons.mpr ⟨?_, ih hys⟩
      intro p hp
      rcases List.mem_cons.mp ((insertPair_perm x ys).mem_iff.mp hp) with rfl | hp
      · exact hyx
      · exact hy p hp

/-- `sortPairs` sorts by key (non-strictly). -/
theorem sortPairs_sorted (l : List (List Nat × RespFrame)) :
    (sortPairs l).Pairwise fun p q => lexLe p.1 q.1 = true := by
  induction l with
  | nil => simp [sortPairs]
  | cons x xs ih => exact pairwise_insertPair x (sortPairs xs) ih

/-- C6: when the hash exists, `HGETALL` with `sort = true` returns the Array
of flattened (field, value) pairs of the sorted snapshot — each field
immediately followed by its value — and (given the map invariant that
fields are distinct) the fields appear in strictly ascending
byte-lexicographic order; when the hash does not exist it returns the Null
frame. -/
theorem c6_hgetall_sorted (key : List Nat) (b : Backend) :
    (∀ m, backendHGetAll key b = some m → (m.map Prod.fst).Nodup →
      (commandExecute (.hgetall key true) b).1 =
        .array ((sortPairs m).flatMap fun p => [.bulkString p.1, p.2]) ∧
      (sortPairs m).Perm m ∧
      ((sortPairs m).map Prod.fst).Pairwise fun a c =>
        lexLe a c = true ∧ a ≠ c) ∧
    (backendHGetAll key b = none →
      (commandExecute (.hgetall key true) b).1 = RespFrame.null) := by
  constructor
  · intro m hm hnd
    refine ⟨by simp [commandExecute, hm], sortPairs_perm m, ?_⟩
    have hsorted : ((sortPairs m).map Prod.fst).Pairwise fun a c =>
        lexLe a c = true :=
      List.pairwise_map.mpr (sortPairs_sorted m)
    have hnd' : ((sortPairs m).map Prod.fst).Nodup :=
      (((sortPairs_perm m).map Prod.fst).nodup_iff).mpr hnd
    exact hsorted.and hnd'
  · intro hm
    simp [commandExecute, hm]

/-- C6 witness: the spec's scenario 4 — two fields under `mykey`, sorted
HGETALL emits `hello, world, myfield, myvalue`. -/
theorem c6_hgetall_sorted_witness :
    backendHGetAll [107] ⟨[], [([107],
      [([109, 121], .bulkString [118, 49]), ([104, 105], .bulkString [118, 50])])]⟩ =
      some [([109, 121], .bulkString [118, 49]), ([104, 105], .bulkString [118, 50])] ∧
    ((([([109, 121], RespFrame.bulkString [118, 49]),
        ([104, 105], RespFrame.bulkString [118, 50])] :
        List (List Nat × RespFrame)).map Prod.fst).Nodup) ∧
    (commandExecute (.hgetall [107] true) ⟨[], [([107],
      [([109, 121], .bulkString [118, 49]), ([104, 105], .bulkString [118, 50])])]⟩).1 =
      .array [.bulkString [104, 105], .bulkString [118, 50],
              .bulkString [109, 121], .bulkString [118, 49]] := by
  refine ⟨rfl, by decide, ?_⟩
  exact ((c6_hgetall_sorted [107] ⟨[], [([107],
      [([109, 121], .bulkString [118, 49]),
       ([104, 105], .bulkString [118, 50])])]⟩).1
    [([109, 121], .bulkString [118, 49]), ([104, 105], .bulkString [118, 50])]
    rfl (by decide)).1

/-! ## Claim C8 — wire-parsed HGETALL never sorts -/

/-- C8: every `HGetAll` constructed by the wire parsers — the dedicated
`TryFrom<RespArray> for HGetAll`, the command dispatcher
`TryFrom<RespArray> for Command`, and `TryFrom<RespFrame> for Command` —
carries `sort = false`; sorted output is unreachable from received bytes. -/
theorem c8_parsed_hgetall_never_sorts (v : List RespFrame) (fr : RespFrame) :
    sortFlagOf (hgetallTryFrom v) = false ∧
    sortFlagOf (commandTryFrom v) = false ∧
    sortFlagOf (commandTryFromFrame fr) = false := by
  have hget : ∀ w, sortFlagOf (getTryFrom w) = false := by
    intro w
    unfold getTryFrom
    split
    · rfl
    · split <;> first | rfl | (split <;> rfl)
  have hset : ∀ w, sortFlagOf (setTryFrom w) = false := by
    intro w
    unfold setTryFrom
    split
    · rfl
    · split <;> first | rfl | (split <;> rfl)
  have hhget : ∀ w, sortFlagOf (hgetTryFrom w) = false := by
    intro w
    unfold hgetTryFrom
    split
    · rfl
    · split <;> first | rfl | (split <;> rfl)
  have hhset : ∀ w, sortFlagOf (hsetTryFrom w) = false := by
    intro w
    unfold hsetTryFrom
    split
    · rfl
    · split <;> first | rfl | (split <;> rfl)
  have hhgetall : ∀ w, sortFlagOf (hgetallTryFrom w) = false := by
    intro w
    unfold hgetallTryFrom
    split
    · rfl
    · split <;> first | rfl | (split <;> rfl)
  have hcmd : ∀ w, sortFlagOf (commandTryFrom w) = false := by
    intro w
    unfold commandTryFrom
    split
    · dsimp only
      split_ifs <;>
        first | exact hget _ | exact hset _ | exact hhget _ | exact hhset _ |
          exact hhgetall _ | rfl
    · rfl
  refine ⟨hhgetall v, hcmd v, ?_⟩
  unfold commandTryFromFrame
  split
  · exact hcmd _
  · rfl

/-! ## Claim C7 — integer and double wire formats -/

/-- Digit bytes produced by `natDigitsAux` are ASCII digits (< 58). -/
theorem natDigitsAux_lt (f m : Nat) : ∀ x ∈ natDigitsAux f m, x < 58 := by
  induction f generalizing m with
  | zero => simp [natDigitsAux]
  | succ f ih =>
    cases m with
    | zero => simp [natDigitsAux]
    | succ k =>
      intro x hx
      simp only [natDigitsAux, List.mem_append, List.mem_singleton] at hx
      rcases hx with hx | rfl
      · exact ih _ x hx
      · omega

/-- Digit bytes of the decimal rendering are ASCII digits (< 58). -/
theorem natDigitBytes_lt (m : Nat) : ∀ x ∈ natDigitBytes m, x < 58 := by
  unfold natDigitBytes
  split
  · simp
  · exact natDigitsAux_lt _ m

/-- Fractional digit bytes are ASCII digits (< 58). -/
theorem fracDigits_lt (f : Nat) (q : ℚ) : ∀ x ∈ fracDigits f q, x < 58 := by
  induction f generalizing q with
  | zero => simp [fracDigits]
  | succ f ih =>
    intro x hx
    simp only [fracDigits] at hx
    split at hx
    · simp at hx
    · simp only [List.mem_cons] at hx
      rcases hx with rfl | hx
      · have : min (⌊q * 10⌋.toNat) 9 ≤ 9 := min_le_right _ _
        omega
      · exact ih _ x hx

/-- Every byte of the plain decimal rendering is below 58 (digits and the
dot), in particular never the scientific marker `e` (101). -/
theorem decAbsBytes_lt (q : ℚ) : ∀ x ∈ decAbsBytes q, x < 58 := by
  intro x hx
  unfold decAbsBytes at hx
  dsimp only at hx
  split at hx
  · exact natDigitBytes_lt _ x hx
  · simp only [List.mem_append, List.mem_cons] at hx
    rcases hx with hx | rfl | hx
    · exact natDigitBytes_lt _ x hx
    · omega
    · exact fracDigits_lt _ _ x hx

/-- Every byte of the signed plain display is below 58 (sign, digits,
dot). -/
theorem ratDisplayBytes_lt (q : ℚ) : ∀ x ∈ ratDisplayBytes q, x < 58 := by
  unfold ratDisplayBytes
  intro x hx
  split at hx
  · simp only [List.mem_cons] at hx
    rcases hx with rfl | hx
    · omega
    · exact decAbsBytes_lt _ x hx
  · exact decAbsBytes_lt _ x hx

/-- The scientific rendering always contains the marker `e` (101). -/
theorem mem_101_sciBytes (q : ℚ) : 101 ∈ sciBytes q := by
  unfold sciBytes
  refine List.mem_append_right _ ?_
  split <;> simp

/-- C7: the encoders' wire-format choices.  Integers: `:+<digits>\r\n` for
`n ≥ 0` and `:-<digits>\r\n` for `n < 0`.  Doubles: the encoded payload
contains the scientific marker `e` exactly when `|x| > 1e8` or `|x| < 1e-8`
(the scientific branch), and starts with an explicit `+` exactly for
non-negative values (`-` exactly for negatives), in either form. -/
theorem c7_encoder_formats (n : Int) (q : ℚ) :
    (0 ≤ n → i64Encode n = 58 :: 43 :: natDigitBytes n.toNat ++ crlf) ∧
    (n < 0 → i64Encode n = 58 :: 45 :: natDigitBytes (-n).toNat ++ crlf) ∧
    f64Encode q = 44 :: f64Body q ++ crlf ∧
    ((101 ∈ f64Body q) ↔ (|q| > 100000000 ∨ |q| < 1 / 100000000)) ∧
    ((f64Body q).head? = some 43 ↔ 0 ≤ q) ∧
    ((f64Body q).head? = some 45 ↔ q < 0) := by
  refine ⟨?_, ?_, rfl, ?_, ?_, ?_⟩
  · intro h
    have h' : ¬ n < 0 := not_lt.mpr h
    simp [i64Encode, intDisplayBytes, h']
  · intro h
    simp [i64Encode, intDisplayBytes, h]
  · by_cases hc : f64SciCond q = true
    · have hbody : f64Body q = sciBytes q := by simp [f64Body, hc]
      rw [hbody]
      simp only [f64SciCond, Bool.or_eq_true, decide_eq_true_eq] at hc
      exact iff_of_true (mem_101_sciBytes q) hc
    · have hbody : f64Body q =
          (if q < 0 then [] else [43]) ++ ratDisplayBytes q := by
        simp [f64Body, hc]
      rw [hbody]
      simp only [f64SciCond, Bool.or_eq_true, decide_eq_true_eq] at hc
      push_neg at hc
      refine iff_of_false ?_ (by push_neg; exact hc)
      intro hmem
      rcases List.mem_append.mp hmem with hmem | hmem
      · split at hmem <;> simp at hmem
      · have := ratDisplayBytes_lt q 101 hmem
        omega
  · by_cases hq : q < 0
    · have h0 : ¬ 0 ≤ q := not_le.mpr hq
      refine iff_of_false ?_ h0
      by_cases hc : f64SciCond q = true
      · simp [f64Body, hc, sciBytes, hq]
      · simp [f64Body, hc, hq, ratDisplayBytes]
    · have h0 : 0 ≤ q := not_lt.mp hq
      refine iff_of_true ?_ h0
      by_cases hc : f64SciCond q = true
      · simp [f64Body, hc, sciBytes, hq]
      · simp [f64Body, hc, hq]
  · by_cases hq : q < 0
    · refine iff_of_true ?_ hq
      by_cases hc : f64SciCond q = true
      · simp [f64Body, hc, sciBytes, hq]
      · simp [f64Body, hc, hq, ratDisplayBytes]
    · refine iff_of_false ?_ hq
      by_cases hc : f64SciCond q = true
      · simp [f64Body, hc, sciBytes, hq]
      · simp [f64Body, hc, hq]

/-- C7 witness: the signed-integer formats at `5` and `-5` (`:+5\r\n`,
`:-5\r\n`), via the theorem. -/
theorem c7_encoder_formats_witness :
    (0 ≤ (5 : Int) ∧
      i64Encode 5 = 58 :: 43 :: natDigitBytes (5 : Int).toNat ++ crlf) ∧
    ((-5 : Int) < 0 ∧
      i64Encode (-5) = 58 :: 45 :: natDigitBytes (-(-5 : Int)).toNat ++ crlf) :=
  ⟨⟨by decide, (c7_encoder_formats 5 1).1 (by decide)⟩,
   ⟨by decide, (c7_encoder_formats (-5) 1).2.1 (by decide)⟩⟩

/-! ## Claim C10 — SimpleString decoding is lossy, never a UTF-8 error -/

/-- The scan finds the terminating CRLF right after a CRLF-free prefix. -/
theorem findCRLF_append (p r : List Nat) (h : crlfFree p = true) :
    findCRLF (p ++ 13 :: 10 :: r) = some p.length := by
  induction p with
  | nil => simp [findCRLF]
  | cons a p' ih =>
    cases p' with
    | nil => simp [findCRLF]
    | cons b p'' =>
      simp only [crlfFree] at h
      split at h
      · exact absurd h (by simp)
      · rename_i hab
        simp only [List.cons_append, List.append_eq, findCRLF,
          if_neg hab] at ih ⊢
        rw [ih h]
        simp

/-- A `+`-prefixed CRLF-free payload is still CRLF-free. -/
theorem crlfFree_cons43 (p : List Nat) (h : crlfFree p = true) :
    crlfFree (43 :: p) = true := by
  cases p with
  | nil => rfl
  | cons b p' => simpa [crlfFree] using h

/-- `extract_simple_frame_data` on a frame whose payload holds no CRLF. -/
theorem extract_simple_string_frame (p r : List Nat)
    (h : crlfFree p = true) :
    extractSimpleFrameData (43 :: p ++ 13 :: 10 :: r) [43] =
      .ok (p.length + 1) := by
  have hfind : findCRLF (43 :: p ++ 13 :: 10 :: r) = some (p.length + 1) := by
    have := findCRLF_append (43 :: p) r (crlfFree_cons43 p h)
    simpa using this
  have h1 : ¬ (43 :: p ++ 13 :: 10 :: r).length < 3 := by
    simp only [List.length_cons, List.length_append]
    omega
  have h2 : ¬ ¬ startsWithB (43 :: p ++ 13 :: 10 :: r) [43] = true := by
    simp [startsWithB]
  unfold extractSimpleFrameData
  rw [if_neg h1, if_neg h2, hfind]
  rfl

/-- Errors escaping `extract_simple_frame_data` are only `NotComplete` and
`InvalidFrameType` — never the UTF-8 variant. -/
theorem extract_err_not_utf8 (buf pfx : List Nat) (e : RespError)
    (h : extractSimpleFrameData buf pfx = .error e) : errUtf8 e = false := by
  unfold extractSimpleFrameData at h
  split_ifs at h <;>
    first
      | (cases h; rfl)
      | (split at h <;> first | (cases h; rfl) | (cases h))

/-- `ssDecodeRaw` errors are never the UTF-8 variant. -/
theorem ssDecodeRaw_no_utf8 (buf : List Nat) :
    resultUtf8Err (ssDecodeRaw buf) = false := by
  unfold ssDecodeRaw
  split
  · rename_i e heq
    exact extract_err_not_utf8 buf [43] e heq
  · rfl

/-- C10: a SimpleString frame whose payload holds no CRLF decodes
successfully — even when the payload is not valid UTF-8 — to the lossy
conversion of the payload, consuming exactly the frame; and SimpleString
decoding never returns the UTF-8 error. -/
theorem c10_simple_string_lossy (payload rest : List Nat)
    (h : crlfFree payload = true) :
    ssDecodeRaw (43 :: payload ++ 13 :: 10 :: rest) =
      (.ok (utf8Lossy payload), rest) ∧
    simpleStringDecode (43 :: payload ++ 13 :: 10 :: rest) =
      (.ok (.simpleString (utf8Lossy payload)), rest) ∧
    (∀ buf, resultUtf8Err (ssDecodeRaw buf) = false) := by
  have hraw : ssDecodeRaw (43 :: payload ++ 13 :: 10 :: rest) =
      (.ok (utf8Lossy payload), rest) := by
    unfold ssDecodeRaw
    rw [extract_simple_string_frame payload rest h]
    have htake : (payload ++ 13 :: 10 :: rest).take (payload.length + 1 - 1) =
        payload := by
      simp [List.take_left]
    have hdrop : (43 :: payload ++ 13 :: 10 :: rest).drop
        (payload.length + 1 + 2) = rest := by
      have hassoc : (43 : Nat) :: payload ++ 13 :: 10 :: rest =
          (43 :: payload ++ [13, 10]) ++ rest := by simp
      rw [hassoc, List.drop_left'
        (by simp only [List.length_cons, List.length_append,
              List.length_nil])]
    simp only [List.drop_one]
    rw [show ((43 : Nat) :: payload ++ 13 :: 10 :: rest).tail =
      payload ++ 13 :: 10 :: rest from rfl, htake, hdrop]
  refine ⟨hraw, ?_, fun buf => ssDecodeRaw_no_utf8 buf⟩
  unfold simpleStringDecode
  rw [hraw]

/-- C10 witness: the single invalid byte `0xFF` decodes to one replacement
character U+FFFD. -/
theorem c10_simple_string_lossy_witness :
    crlfFree [255] = true ∧
    simpleStringDecode [43, 255, 13, 10] =
      (.ok (.simpleString [239, 191, 189]), []) :=
  ⟨rfl, (c10_simple_string_lossy [255] [] rfl).2.1⟩

/-! ## Claim C9 — `InvalidFrameLength` is unreachable

No code path of the codec constructs `RespError::InvalidFrameLength`: a
negative (non-sentinel) or non-numeric length header fails inside
`parse_length`'s `usize` parse as a `ParseIntError`.  Proved as an invariant
of every decoder, by the same induction that structures the definitions. -/

/-- `extract_simple_frame_data` never yields `InvalidFrameLength`. -/
theorem extract_not_ifl (buf pfx : List Nat) :
    isIFL (extractSimpleFrameData buf pfx) = false := by
  unfold extractSimpleFrameData
  split_ifs <;> first | rfl | (split <;> rfl)

/-- `usize` parsing never yields `InvalidFrameLength`. -/
theorem parseUsize_not_ifl (s : List Nat) : isIFL (parseUsize s) = false := by
  unfold parseUsize
  split <;> split <;> rfl

/-- `i64` parsing never yields `InvalidFrameLength`. -/
theorem parseI64_not_ifl (s : List Nat) : isIFL (parseI64 s) = false := by
  unfold parseI64
  split <;> split <;> rfl

/-- `f64` parsing never yields `InvalidFrameLength`. -/
theorem parseF64_not_ifl (s : List Nat) : isIFL (parseF64 s) = false := by
  unfold parseF64
  dsimp only
  repeat' split
  all_goals rfl

/-- `parse_length` never yields `InvalidFrameLength`: header errors are
`NotComplete`/`InvalidFrameType`, digit errors are `ParseIntError`. -/
theorem parseLength_not_ifl (buf pfx : List Nat) :
    isIFL (parseLength buf pfx) = false := by
  unfold parseLength
  cases hex : extractSimpleFrameData buf pfx with
  | error e =>
    have := extract_not_ifl buf pfx
    rw [hex] at this
    exact this
  | ok e1 =>
    dsimp only
    cases hp : parseUsize ((buf.drop pfx.length).take (e1 - pfx.length)) with
    | error e =>
      have := parseUsize_not_ifl ((buf.drop pfx.length).take (e1 - pfx.length))
      rw [hp] at this
      exact this
    | ok n => rfl

/-- Simple-frame `expect_length` never yields `InvalidFrameLength`. -/
theorem simpleExpectLen_not_ifl (buf pfx : List Nat) :
    isIFL (simpleExpectLen buf pfx) = false := by
  unfold simpleExpectLen
  split
  · rename_i e heq
    have := extract_not_ifl buf pfx
    rw [heq] at this
    exact this
  · rfl

/-- `BulkString::expect_length` never yields `InvalidFrameLength`. -/
theorem bulkStringExpectLen_not_ifl (buf : List Nat) :
    isIFL (bulkStringExpectLen buf) = false := by
  unfold bulkStringExpectLen
  split
  · rename_i e heq
    have := parseLength_not_ifl buf [36]
    rw [heq] at this
    exact this
  · rfl

set_option maxHeartbeats 2000000 in
/-- The whole read-only probe family never yields `InvalidFrameLength`, at
every fuel. -/
theorem expect_not_ifl (f : Nat) :
    (∀ buf, isIFL (frameExpectLen f buf) = false) ∧
    (∀ buf p, isIFL (compositeExpectLen f buf p) = false) ∧
    (∀ buf e l p, isIFL (calcTotalLen f buf e l p) = false) ∧
    (∀ n d t, isIFL (walkFrames f n d t) = false) ∧
    (∀ n d t, isIFL (walkPairs f n d t) = false) := by
  induction f with
  | zero =>
    exact ⟨fun _ => rfl, fun _ _ => rfl, fun _ _ _ _ => rfl,
      fun _ _ _ => rfl, fun _ _ _ => rfl⟩
  | succ f ih =>
    obtain ⟨ihF, ihC, ihT, ihW, ihP⟩ := ih
    refine ⟨?_, ?_, ?_, ?_, ?_⟩
    · intro buf
      simp only [frameExpectLen]
      split
      · rfl
      · split_ifs <;>
          first
            | exact ihC _ _
            | exact bulkStringExpectLen_not_ifl _
            | exact simpleExpectLen_not_ifl _ _
            | rfl
    · intro buf p
      simp only [compositeExpectLen]
      split
      · rename_i e heq
        have := parseLength_not_ifl buf [p]
        rw [heq] at this
        exact this
      · exact ihT _ _ _ _
    · intro buf e l p
      simp only [calcTotalLen]
      split_ifs
      · exact ihW _ _ _
      · exact ihP _ _ _
      · rfl
    · intro n d t
      cases n with
      | zero => rfl
      | succ n =>
        simp only [walkFrames]
        split
        · rename_i e heq
          have := ihF d
          rw [heq] at this
          exact this
        · exact ihW _ _ _
    · intro n d t
      cases n with
      | zero => rfl
      | succ n =>
        simp only [walkPairs]
        cases h1 : simpleExpectLen d [43] with
        | error e =>
          have := simpleExpectLen_not_ifl d [43]
          rw [h1] at this
          exact this
        | ok l1 =>
          dsimp only
          cases h2 : frameExpectLen f (d.drop l1) with
          | error e =>
            have := ihF (d.drop l1)
            rw [h2] at this
            exact this
          | ok l2 => exact ihP _ _ _

/-- `extract_fixed_data` never yields `InvalidFrameLength`. -/
theorem extractFixedData_not_ifl (buf expected : List Nat) :
    isIFL (extractFixedData buf expected).1 = false := by
  unfold extractFixedData
  split_ifs <;> rfl

/-- `SimpleString::decode` (raw) never yields `InvalidFrameLength`. -/
theorem ssDecodeRaw_not_ifl (buf : List Nat) :
    isIFL (ssDecodeRaw buf).1 = false := by
  unfold ssDecodeRaw
  cases hex : extractSimpleFrameData buf [43] with
  | error e =>
    have := extract_not_ifl buf [43]
    rw [hex] at this
    exact this
  | ok e => rfl

/-- `SimpleString::decode` never yields `InvalidFrameLength`. -/
theorem simpleStringDecode_not_ifl (buf : List Nat) :
    isIFL (simpleStringDecode buf).1 = false := by
  unfold simpleStringDecode
  rcases hs : ssDecodeRaw buf with ⟨r, b2⟩
  cases r with
  | ok s => rfl
  | error e =>
    have := ssDecodeRaw_not_ifl buf
    rw [hs] at this
    exact this

/-- `SimpleError::decode` never yields `InvalidFrameLength`. -/
theorem simpleErrorDecode_not_ifl (buf : List Nat) :
    isIFL (simpleErrorDecode buf).1 = false := by
  unfold simpleErrorDecode
  cases hex : extractSimpleFrameData buf [45] with
  | error e =>
    have := extract_not_ifl buf [45]
    rw [hex] at this
    exact this
  | ok e => rfl

/-- `i64::decode` never yields `InvalidFrameLength`. -/
theorem i64Decode_not_ifl (buf : List Nat) :
    isIFL (i64Decode buf).1 = false := by
  unfold i64Decode
  cases hex : extractSimpleFrameData buf [58] with
  | error e =>
    have := extract_not_ifl buf [58]
    rw [hex] at this
    exact this
  | ok e =>
    dsimp only
    cases hp : parseI64 ((buf.drop 1).take (e - 1)) with
    | error er =>
      have := parseI64_not_ifl ((buf.drop 1).take (e - 1))
      rw [hp] at this
      exact this
    | ok n => rfl

/-- `f64::decode` never yields `InvalidFrameLength`. -/
theorem f64Decode_not_ifl (buf : List Nat) :
    isIFL (f64Decode buf).1 = false := by
  unfold f64Decode
  cases hex : extractSimpleFrameData buf [44] with
  | error e =>
    have := extract_not_ifl buf [44]
    rw [hex] at this
    exact this
  | ok e =>
    dsimp only
    cases hp : parseF64 ((buf.drop 1).take (e - 1)) with
    | error er =>
      have := parseF64_not_ifl ((buf.drop 1).take (e - 1))
      rw [hp] at this
      exact this
    | ok q => rfl

/-- `bool::decode` never yields `InvalidFrameLength`. -/
theorem boolDecode_not_ifl (buf : List Nat) :
    isIFL (boolDecode buf).1 = false := by
  unfold boolDecode
  rcases h1 : extractFixedData buf [35, 116, 13, 10] with ⟨r1, b1⟩
  cases r1 with
  | ok u => rfl
  | error e1 =>
    rcases h2 : extractFixedData buf [35, 102, 13, 10] with ⟨r2, b2⟩
    cases r2 with
    | ok u => rfl
    | error e2 =>
      have := extractFixedData_not_ifl buf [35, 102, 13, 10]
      rw [h2] at this
      exact this

/-- `RespNull::decode` never yields `InvalidFrameLength`. -/
theorem nullDecode_not_ifl (buf : List Nat) :
    isIFL (nullDecode buf).1 = false := by
  unfold nullDecode
  rcases h : extractFixedData buf [95, 13, 10] with ⟨r, b2⟩
  cases r with
  | ok u => rfl
  | error e =>
    have := extractFixedData_not_ifl buf [95, 13, 10]
    rw [h] at this
    exact this

/-- `RespNullArray::decode` never yields `InvalidFrameLength`. -/
theorem nullArrayDecode_not_ifl (buf : List Nat) :
    isIFL (nullArrayDecode buf).1 = false := by
  unfold nullArrayDecode
  rcases h : extractFixedData buf [42, 45, 49, 13, 10] with ⟨r, b2⟩
  cases r with
  | ok u => rfl
  | error e =>
    have := extractFixedData_not_ifl buf [42, 45, 49, 13, 10]
    rw [h] at this
    exact this

/-- `BulkString::decode` never yields `InvalidFrameLength`. -/
theorem bulkStringDecode_not_ifl (buf : List Nat) :
    isIFL (bulkStringDecode buf).1 = false := by
  unfold bulkStringDecode
  cases hp : parseLength buf [36] with
  | error e =>
    have := parseLength_not_ifl buf [36]
    rw [hp] at this
    exact this
  | ok p =>
    obtain ⟨e, len⟩ := p
    dsimp only
    split_ifs <;> rfl

set_option maxHeartbeats 2000000 in
/-- No decoder ever yields `InvalidFrameLength`, at every fuel. -/
theorem decode_not_ifl (f : Nat) :
    (∀ buf, isIFL (frameDecode f buf).1 = false) ∧
    (∀ buf, isIFL (arrayDecode f buf).1 = false) ∧
    (∀ buf, isIFL (setDecode f buf).1 = false) ∧
    (∀ buf, isIFL (mapDecode f buf).1 = false) ∧
    (∀ n buf, isIFL (decodeChildren f n buf).1 = false) ∧
    (∀ n acc buf, isIFL (decodePairs f n acc buf).1 = false) := by
  induction f with
  | zero =>
    exact ⟨fun _ => rfl, fun _ => rfl, fun _ => rfl, fun _ => rfl,
      fun _ _ => rfl, fun _ _ _ => rfl⟩
  | succ f ih =>
    obtain ⟨ihF, ihA, ihS, ihM, ihC, ihP⟩ := ih
    refine ⟨?_, ?_, ?_, ?_, ?_, ?_⟩
    · intro buf
      simp only [frameDecode]
      split
      · rfl
      · split_ifs
        · exact simpleStringDecode_not_ifl _
        · exact simpleErrorDecode_not_ifl _
        · exact i64Decode_not_ifl _
        · rcases hna : nullArrayDecode buf with ⟨r, b2⟩
          cases r with
          | ok fr => rfl
          | error e =>
            cases e <;> first | rfl | exact bulkStringDecode_not_ifl buf
        · rcases hna : nullArrayDecode buf with ⟨r, b2⟩
          cases r with
          | ok fr => rfl
          | error e =>
            cases e <;> first | rfl | exact ihA buf
        · exact nullDecode_not_ifl _
        · exact boolDecode_not_ifl _
        · exact f64Decode_not_ifl _
        · exact ihM _
        · exact ihS _
        · rfl
    · intro buf
      simp only [arrayDecode]
      cases hp : parseLength buf [42] with
      | error e =>
        have := parseLength_not_ifl buf [42]
        rw [hp] at this
        exact this
      | ok p =>
        obtain ⟨e, len⟩ := p
        dsimp only
        cases hct : calcTotalLen (buf.length + 1) buf e len 42 with
        | error er =>
          have := (expect_not_ifl (buf.length + 1)).2.2.1 buf e len 42
          rw [hct] at this
          exact this
        | ok total =>
          dsimp only
          split_ifs
          · rfl
          · rcases hdc : decodeChildren f len (buf.drop (e + 2)) with ⟨r, b2⟩
            cases r with
            | ok frames => rfl
            | error er =>
              have := ihC len (buf.drop (e + 2))
              rw [hdc] at this
              exact this
    · intro buf
      simp only [setDecode]
      cases hp : parseLength buf [126] with
      | error e =>
        have := parseLength_not_ifl buf [126]
        rw [hp] at this
        exact this
      | ok p =>
        obtain ⟨e, len⟩ := p
        dsimp only
        cases hct : calcTotalLen (buf.length + 1) buf e len 126 with
        | error er =>
          have := (expect_not_ifl (buf.length + 1)).2.2.1 buf e len 126
          rw [hct] at this
          exact this
        | ok total =>
          dsimp only
          split_ifs
          · rfl
          · rcases hdc : decodeChildren f len (buf.drop (e + 2)) with ⟨r, b2⟩
            cases r with
            | ok frames => rfl
            | error er =>
              have := ihC len (buf.drop (e + 2))
              rw [hdc] at this
              exact this
    · intro buf
      simp only [mapDecode]
      cases hp : parseLength buf [37] with
      | error e =>
        have := parseLength_not_ifl buf [37]
        rw [hp] at this
        exact this
      | ok p =>
        obtain ⟨e, len⟩ := p
        dsimp only
        cases hct : calcTotalLen (buf.length + 1) buf e len 37 with
        | error er =>
          have := (expect_not_ifl (buf.length + 1)).2.2.1 buf e len 37
          rw [hct] at this
          exact this
        | ok total =>
          dsimp only
          split_ifs
          · rfl
          · rcases hdc : decodePairs f len [] (buf.drop (e + 2)) with ⟨r, b2⟩
            cases r with
            | ok entries => rfl
            | error er =>
              have := ihP len [] (buf.drop (e + 2))
              rw [hdc] at this
              exact this
    · intro n buf
      cases n with
      | zero => rfl
      | succ n =>
        simp only [decodeChildren]
        rcases hf : frameDecode f buf with ⟨r, b2⟩
        cases r with
        | error e =>
          have := ihF buf
          rw [hf] at this
          exact this
        | ok fr =>
          dsimp only
          rcases hc : decodeChildren f n b2 with ⟨r2, b3⟩
          cases r2 with
          | ok frames => rfl
          | error e =>
            have := ihC n b2
            rw [hc] at this
            exact this
    · intro n acc buf
      cases n with
      | zero => rfl
      | succ n =>
        simp only [decodePairs]
        rcases hs : ssDecodeRaw buf with ⟨r, b2⟩
        cases r with
        | error e =>
          have := ssDecodeRaw_not_ifl buf
          rw [hs] at this
          exact this
        | ok k =>
          dsimp only
          rcases hf : frameDecode f b2 with ⟨r2, b3⟩
          cases r2 with
          | error e =>
            have := ihF b2
            rw [hf] at this
            exact this
          | ok v => exact ihP n (mapInsert k v acc) b3

/-- C9: the `InvalidFrameLength` error is unreachable at the decode
interface — both `RespFrame::decode` and `RespFrame::expect_length` never
return it on any buffer; concretely, negative non-sentinel length headers
(`$-2\r\n`, `*-2\r\n`) surface as `ParseIntError` from `parse_length`
instead, leaving the buffer untouched. -/
theorem c9_invalid_frame_length_unreachable (buf : List Nat) :
    isIFL (respFrameDecode buf).1 = false ∧
    isIFL (respFrameExpectLength buf) = false ∧
    respFrameDecode [36, 45, 50, 13, 10] =
      (.error .parseIntError, [36, 45, 50, 13, 10]) ∧
    respFrameDecode [42, 45, 50, 13, 10] =
      (.error .parseIntError, [42, 45, 50, 13, 10]) :=
  ⟨(decode_not_ifl (buf.length + 1)).1 buf,
   (expect_not_ifl (buf.length + 1)).1 buf, rfl, rfl⟩

end SimpleRedis
